import Mathlib

/-!
Shallow embedding of `src/gnc/navigator_controller/src/mrac_controller.py`
(MRAC_Controller) over the real numbers.

Conventions:
* numpy arrays become functions `Fin n → ℝ`, numpy 2-d arrays become
  `Matrix (Fin m) (Fin n) ℝ`;
* quaternions follow the `tf.transformations` layout `[x, y, z, w]`,
  embedded as `Fin 4 → ℝ`;
* the library calls (`tf.transformations`, `numpy`) are modelled by the
  formulas those libraries document/implement, specialized exactly to the
  arguments the controller passes them;
* the controller's floating-point arithmetic is embedded as exact real
  arithmetic, hence the definitions live in a `noncomputable section`
  (`Real.sin`, `Real.sqrt`, `Complex.arg` have no executable code);
  witnesses evaluate the definitions by `simp`/`norm_num`/`rfl`.
-/

noncomputable section

/-- `np.clip(x, lo, hi)`: numpy documents it as
`minimum(maximum(x, lo), hi)`. -/
def clip (x lo hi : ℝ) : ℝ := min (max x lo) hi

/-- `np.deg2rad`. -/
def deg2rad (d : ℝ) : ℝ := d * Real.pi / 180

/-- Standard two-argument arctangent, the angle of the point `(x, y)`:
`atan2 y x = Complex.arg (x + y i)`. -/
def atan2 (y x : ℝ) : ℝ := Complex.arg (x + y * Complex.I)

/-- `np.angle(x + 1j*y)`, which numpy documents as `arctan2(y, x)`,
i.e. the argument of the complex number `x + y i`. -/
def np_angle (x y : ℝ) : ℝ := Complex.arg (x + y * Complex.I)

/-- `npl.norm` of a 2-vector: `sqrt (x² + y²)`. -/
def npl_norm2 (p : Fin 2 → ℝ) : ℝ := Real.sqrt (p 0 * p 0 + p 1 * p 1)

/-- `np.cross` of two 3-vectors. -/
def cross3 (a b : Fin 3 → ℝ) : Fin 3 → ℝ :=
  ![a 1 * b 2 - a 2 * b 1, a 2 * b 0 - a 0 * b 2, a 0 * b 1 - a 1 * b 0]

/-- `np.max(np.abs(c))` for the (nonempty) command arrays the controller
passes: the fold of `max` over all `|c i|`, seeded with `0` (the seed is
never the strict maximum on a nonempty array of absolute values, so this
agrees with numpy there, and gives the empty array a harmless default). -/
def maxAbs {n : ℕ} (c : Fin n → ℝ) : ℝ :=
  Finset.univ.fold max 0 (fun i => |c i|)

/-- `_EPS` of `tf.transformations`: `numpy.finfo(float).eps * 4.0`,
i.e. `4 * 2⁻⁵²`. -/
def tfEPS : ℝ := 4 / 2 ^ 52

/-- `numpy.dot(q, q)` for a quaternion `[x, y, z, w]`. -/
def qdot (q : Fin 4 → ℝ) : ℝ := q 0 * q 0 + q 1 * q 1 + q 2 * q 2 + q 3 * q 3

/-- `tf.transformations.quaternion_conjugate` ([x,y,z,w] layout). -/
def qconj (q : Fin 4 → ℝ) : Fin 4 → ℝ := ![-q 0, -q 1, -q 2, q 3]

/-- `tf.transformations.quaternion_inverse`: conjugate divided by
`numpy.dot(q, q)`. -/
def qinv (q : Fin 4 → ℝ) : Fin 4 → ℝ := fun i => qconj q i / qdot q

/-- `tf.transformations.quaternion_multiply(q1, q0)` ([x,y,z,w] layout). -/
def qmul (q1 q0 : Fin 4 → ℝ) : Fin 4 → ℝ :=
  ![q1 0 * q0 3 + q1 1 * q0 2 - q1 2 * q0 1 + q1 3 * q0 0,
    -q1 0 * q0 2 + q1 1 * q0 3 + q1 2 * q0 0 + q1 3 * q0 1,
    q1 0 * q0 1 - q1 1 * q0 0 + q1 2 * q0 3 + q1 3 * q0 2,
    -q1 0 * q0 0 - q1 1 * q0 1 - q1 2 * q0 2 + q1 3 * q0 3]

/-- `tf.transformations.quaternion_from_euler(0, 0, θ)` (axes 'sxyz'):
with zero roll and pitch the general formula reduces to
`[0, 0, sin(θ/2), cos(θ/2)]`.  The controller only ever calls
`quaternion_from_euler` with zero roll and pitch. -/
def qfe_z (θ : ℝ) : Fin 4 → ℝ := ![0, 0, Real.sin (θ / 2), Real.cos (θ / 2)]

/-- The 3×3 block of `tf.transformations.quaternion_matrix(q)`:
if `dot(q, q) < _EPS` the identity is returned, otherwise `q` is scaled by
`sqrt (2 / dot(q,q))` and the standard outer-product rotation matrix is
assembled; the scaling appears below as the exact factor `s = 2 / dot(q,q)`
multiplying each quadratic term. -/
def Rmat (q : Fin 4 → ℝ) : Matrix (Fin 3) (Fin 3) ℝ :=
  let nq := qdot q
  if nq < tfEPS then 1 else
  let s := 2 / nq
  !![1 - s * (q 1 * q 1 + q 2 * q 2), s * (q 0 * q 1 - q 2 * q 3), s * (q 0 * q 2 + q 1 * q 3);
     s * (q 0 * q 1 + q 2 * q 3), 1 - s * (q 0 * q 0 + q 2 * q 2), s * (q 1 * q 2 - q 0 * q 3);
     s * (q 0 * q 2 - q 1 * q 3), s * (q 1 * q 2 + q 0 * q 3), 1 - s * (q 0 * q 0 + q 1 * q 1)]

/-- `tf.transformations.euler_from_quaternion(q)[2]` (axes 'sxyz'):
`euler_from_matrix(quaternion_matrix(q))` computes
`cy = sqrt (M₀₀² + M₁₀²)` and returns yaw `atan2 M₁₀ M₀₀` when
`cy > _EPS`, and yaw `0` otherwise. -/
def yawOf (q : Fin 4 → ℝ) : ℝ :=
  let M := Rmat q
  let cy := Real.sqrt (M 0 0 * M 0 0 + M 1 0 * M 1 0)
  if tfEPS < cy then atan2 (M 1 0) (M 0 0) else 0

/-! ## Hard-coded tunables and thruster geometry (`MRAC_Controller.__init__`) -/

/-- `self.kp_body = np.diag([600, 700, 700])`. -/
def kp_body : Matrix (Fin 3) (Fin 3) ℝ := Matrix.diagonal ![600, 700, 700]

/-- `self.kd_body = np.diag([650, 750, 750])`. -/
def kd_body : Matrix (Fin 3) (Fin 3) ℝ := Matrix.diagonal ![650, 750, 750]

/-- `self.vel_max_body = np.array([1.5, 0.5, 0.5])`. -/
def vel_max_body : Fin 3 → ℝ := ![1.5, 0.5, 0.5]

/-- `self.heading_threshold = 500`. -/
def heading_threshold : ℝ := 500

/-- `self.mass_ref = 300`. -/
def mass_ref : ℝ := 300

/-- `self.inertia_ref = 300`. -/
def inertia_ref : ℝ := 300

/-- `self.thrust_max = 220`. -/
def thrust_max : ℝ := 220

/-- `self.thruster_positions`. -/
def thruster_positions : Fin 4 → Fin 3 → ℝ :=
  ![![-1.9, 1, -0.0123],
    ![-1.9, -1, -0.0123],
    ![1.6, -0.6, -0.0123],
    ![1.6, 0.6, -0.0123]]

/-- `self.thruster_directions`. -/
def thruster_directions : Fin 4 → Fin 3 → ℝ :=
  ![![0.7071, 0.7071, 0],
    ![0.7071, -0.7071, 0],
    ![0.7071, 0.7071, 0],
    ![0.7071, -0.7071, 0]]

/-- `self.lever_arms = np.cross(self.thruster_positions, self.thruster_directions)`
(row-wise cross product). -/
def lever_arms : Fin 4 → Fin 3 → ℝ :=
  fun i => cross3 (thruster_positions i) (thruster_directions i)

/-- `self.B_body = np.concatenate((self.thruster_directions.T, self.lever_arms.T))`:
a 6×4 matrix whose first three rows are the transposed directions and whose
last three rows are the transposed lever arms. -/
def B_body : Matrix (Fin 6) (Fin 4) ℝ :=
  Matrix.of ![fun j => thruster_directions j 0,
              fun j => thruster_directions j 1,
              fun j => thruster_directions j 2,
              fun j => lever_arms j 0,
              fun j => lever_arms j 1,
              fun j => lever_arms j 2]

/-- `self.Fx_max_body = self.B_body.dot(self.thrust_max * np.array([1, 1, 1, 1]))`. -/
def Fx_max_body : Fin 6 → ℝ :=
  B_body.mulVec (fun j => thrust_max * (![1, 1, 1, 1] : Fin 4 → ℝ) j)

/-- `self.Fy_max_body = self.B_body.dot(self.thrust_max * np.array([1, -1, 1, -1]))`. -/
def Fy_max_body : Fin 6 → ℝ :=
  B_body.mulVec (fun j => thrust_max * (![1, -1, 1, -1] : Fin 4 → ℝ) j)

/-- `self.Mz_max_body = self.B_body.dot(self.thrust_max * np.array([-1, 1, 1, -1]))`. -/
def Mz_max_body : Fin 6 → ℝ :=
  B_body.mulVec (fun j => thrust_max * (![-1, 1, 1, -1] : Fin 4 → ℝ) j)

/-- `self.D_body = abs([Fx_max_body[0], Fy_max_body[1], Mz_max_body[5]]) / vel_max_body**2`. -/
def D_body : Fin 3 → ℝ :=
  fun i => |(![Fx_max_body 0, Fy_max_body 1, Mz_max_body 5] : Fin 3 → ℝ) i| /
    (vel_max_body i) ^ 2

/-! ## Thruster mapper -/

/-- `npl.pinv(B)` for the 3×N matrices the controller passes: when `B`
has full row rank the Moore–Penrose pseudoinverse equals the right-inverse
formula `Bᵀ (B Bᵀ)⁻¹`, which is the form modelled here.  (Mathlib's matrix
inverse is the zero matrix when `B Bᵀ` is singular; numpy's SVD-based
pseudoinverse differs from this model only in that rank-deficient case.) -/
def npl_pinv {n : ℕ} (B : Matrix (Fin 3) (Fin n) ℝ) : Matrix (Fin n) (Fin 3) ℝ :=
  B.transpose * (B * B.transpose)⁻¹

/-- `MRAC_Controller.thruster_mapper(wrench, B)`: the minimum-energy
command `pinv(B) · wrench`, uniformly rescaled to `thrust_max / max |cᵢ|`
when its largest absolute component exceeds `thrust_max`. -/
def thruster_mapper {n : ℕ} (wrench : Fin 3 → ℝ) (B : Matrix (Fin 3) (Fin n) ℝ) :
    Fin n → ℝ :=
  let command := (npl_pinv B).mulVec wrench
  let command_max := maxAbs command
  if thrust_max < command_max then fun i => thrust_max / command_max * command i
  else command

/-! ## Helper lemmas about `maxAbs` -/

lemma maxAbs_nonneg {n : ℕ} (c : Fin n → ℝ) : 0 ≤ maxAbs c := by
  unfold maxAbs
  rw [Finset.le_fold_max]
  exact Or.inl le_rfl

lemma maxAbs_le_iff {n : ℕ} (c : Fin n → ℝ) (t : ℝ) :
    maxAbs c ≤ t ↔ 0 ≤ t ∧ ∀ i, |c i| ≤ t := by
  unfold maxAbs
  rw [Finset.fold_max_le]
  constructor
  · rintro ⟨h0, h⟩
    exact ⟨h0, fun i => h i (Finset.mem_univ i)⟩
  · rintro ⟨h0, h⟩
    exact ⟨h0, fun i _ => h i⟩

lemma abs_le_maxAbs {n : ℕ} (c : Fin n → ℝ) (i : Fin n) : |c i| ≤ maxAbs c := by
  unfold maxAbs
  rw [Finset.le_fold_max]
  exact Or.inr ⟨i, Finset.mem_univ i, le_rfl⟩

lemma maxAbs_smul_le {n : ℕ} (c : Fin n → ℝ) (a : ℝ) (ha : 0 ≤ a) :
    maxAbs (fun i => a * c i) ≤ a * maxAbs c := by
  rw [maxAbs_le_iff]
  refine ⟨mul_nonneg ha (maxAbs_nonneg c), fun i => ?_⟩
  rw [abs_mul, abs_of_nonneg ha]
  exact mul_le_mul_of_nonneg_left (abs_le_maxAbs c i) ha

lemma maxAbs_smul {n : ℕ} (c : Fin n → ℝ) (a : ℝ) (ha : 0 < a) :
    maxAbs (fun i => a * c i) = a * maxAbs c := by
  refine le_antisymm (maxAbs_smul_le c a ha.le) ?_
  have h := maxAbs_smul_le (fun i => a * c i) a⁻¹ (inv_nonneg.mpr ha.le)
  have hc : (fun i => a⁻¹ * (a * c i)) = c := by
    funext i
    field_simp
  rw [hc] at h
  calc a * maxAbs c ≤ a * (a⁻¹ * maxAbs fun i => a * c i) :=
        mul_le_mul_of_nonneg_left h ha.le
    _ = maxAbs (fun i => a * c i) := by field_simp

/-! ## Claims about the thruster mapper -/

/-- Claim C1: for every full-row-rank mapping matrix `B` (expressed as
`B Bᵀ` invertible) and every wrench whose minimum-norm command
`pinv(B) · wrench` has all components within `thrust_max`, the thruster
mapper returns that command unscaled and the achieved wrench
`B · command` equals the requested wrench. -/
theorem thruster_mapper_exact {n : ℕ} (B : Matrix (Fin 3) (Fin n) ℝ)
    (wrench : Fin 3 → ℝ) (hrank : IsUnit (B * B.transpose).det)
    (henv : ∀ i, |((npl_pinv B).mulVec wrench) i| ≤ thrust_max) :
    thruster_mapper wrench B = (npl_pinv B).mulVec wrench ∧
      B.mulVec (thruster_mapper wrench B) = wrench := by
  have hmax : maxAbs ((npl_pinv B).mulVec wrench) ≤ thrust_max := by
    rw [maxAbs_le_iff]
    exact ⟨by norm_num [thrust_max], henv⟩
  have hunscaled : thruster_mapper wrench B = (npl_pinv B).mulVec wrench := by
    unfold thruster_mapper
    rw [if_neg (not_lt.mpr hmax)]
  refine ⟨hunscaled, ?_⟩
  rw [hunscaled]
  unfold npl_pinv
  rw [Matrix.mulVec_mulVec, ← Matrix.mul_assoc, Matrix.mul_nonsing_inv _ hrank,
    Matrix.one_mulVec]

/-- Witness for C1 at `B = 1`, `wrench = 0`. -/
theorem thruster_mapper_exact_witness :
    IsUnit (((1 : Matrix (Fin 3) (Fin 3) ℝ) * (1 : Matrix (Fin 3) (Fin 3) ℝ).transpose).det) ∧
      (∀ i, |((npl_pinv (1 : Matrix (Fin 3) (Fin 3) ℝ)).mulVec (0 : Fin 3 → ℝ)) i| ≤ thrust_max) ∧
      (thruster_mapper (0 : Fin 3 → ℝ) (1 : Matrix (Fin 3) (Fin 3) ℝ) =
        (npl_pinv (1 : Matrix (Fin 3) (Fin 3) ℝ)).mulVec (0 : Fin 3 → ℝ) ∧
        (1 : Matrix (Fin 3) (Fin 3) ℝ).mulVec
          (thruster_mapper (0 : Fin 3 → ℝ) (1 : Matrix (Fin 3) (Fin 3) ℝ)) = (0 : Fin 3 → ℝ)) := by
  have h1 : IsUnit (((1 : Matrix (Fin 3) (Fin 3) ℝ) * (1 : Matrix (Fin 3) (Fin 3) ℝ).transpose).det) := by
    simp
  have h2 : ∀ i, |((npl_pinv (1 : Matrix (Fin 3) (Fin 3) ℝ)).mulVec (0 : Fin 3 → ℝ)) i| ≤ thrust_max := by
    intro i
    rw [Matrix.mulVec_zero]
    norm_num [thrust_max]
  exact ⟨h1, h2, thruster_mapper_exact 1 0 h1 h2⟩

/-- Claim C2: the returned command always has infinity-norm at most
`thrust_max`; and whenever the unscaled minimum-norm command exceeds
`thrust_max` in some component, the returned command is the unscaled one
multiplied by `thrust_max / max |cᵢ|`, and its infinity-norm is exactly
`thrust_max`. -/
theorem thruster_mapper_saturates :
    (∀ (n : ℕ) (wrench : Fin 3 → ℝ) (B : Matrix (Fin 3) (Fin n) ℝ),
      maxAbs (thruster_mapper wrench B) ≤ thrust_max) ∧
    (∀ (n : ℕ) (wrench : Fin 3 → ℝ) (B : Matrix (Fin 3) (Fin n) ℝ),
      thrust_max < maxAbs ((npl_pinv B).mulVec wrench) →
        thruster_mapper wrench B =
          (fun i => thrust_max / maxAbs ((npl_pinv B).mulVec wrench) *
            ((npl_pinv B).mulVec wrench) i) ∧
        maxAbs (thruster_mapper wrench B) = thrust_max) := by
  have htm : (0 : ℝ) < thrust_max := by norm_num [thrust_max]
  have key : ∀ (n : ℕ) (wrench : Fin 3 → ℝ) (B : Matrix (Fin 3) (Fin n) ℝ),
      thrust_max < maxAbs ((npl_pinv B).mulVec wrench) →
        thruster_mapper wrench B =
          (fun i => thrust_max / maxAbs ((npl_pinv B).mulVec wrench) *
            ((npl_pinv B).mulVec wrench) i) ∧
        maxAbs (thruster_mapper wrench B) = thrust_max := by
    intro n wrench B h
    have hm0 : 0 < maxAbs ((npl_pinv B).mulVec wrench) := lt_trans htm h
    have hscaled : thruster_mapper wrench B =
        (fun i => thrust_max / maxAbs ((npl_pinv B).mulVec wrench) *
          ((npl_pinv B).mulVec wrench) i) := by
      unfold thruster_mapper
      rw [if_pos h]
    refine ⟨hscaled, ?_⟩
    rw [hscaled, maxAbs_smul _ _ (div_pos htm hm0), div_mul_cancel₀ _ hm0.ne']
  refine ⟨fun n wrench B => ?_, key⟩
  by_cases h : thrust_max < maxAbs ((npl_pinv B).mulVec wrench)
  · exact le_of_eq ((key n wrench B h).2)
  · have : thruster_mapper wrench B = (npl_pinv B).mulVec wrench := by
      unfold thruster_mapper
      rw [if_neg h]
    rw [this]
    exact not_lt.mp h

/-- Witness for C2 at `B = 1`, `wrench = (1000, 0, 0)`, whose minimum-norm
command exceeds `thrust_max = 220`. -/
theorem thruster_mapper_saturates_witness :
    thrust_max < maxAbs ((npl_pinv (1 : Matrix (Fin 3) (Fin 3) ℝ)).mulVec ![1000, 0, 0]) ∧
      (thruster_mapper ![1000, 0, 0] (1 : Matrix (Fin 3) (Fin 3) ℝ) =
        (fun i => thrust_max / maxAbs ((npl_pinv (1 : Matrix (Fin 3) (Fin 3) ℝ)).mulVec ![1000, 0, 0]) *
          ((npl_pinv (1 : Matrix (Fin 3) (Fin 3) ℝ)).mulVec ![1000, 0, 0]) i) ∧
        maxAbs (thruster_mapper ![1000, 0, 0] (1 : Matrix (Fin 3) (Fin 3) ℝ)) = thrust_max) := by
  have hpinv : npl_pinv (1 : Matrix (Fin 3) (Fin 3) ℝ) = 1 := by
    unfold npl_pinv
    simp
  have h : thrust_max < maxAbs ((npl_pinv (1 : Matrix (Fin 3) (Fin 3) ℝ)).mulVec ![1000, 0, 0]) := by
    rw [hpinv, Matrix.one_mulVec]
    have h1000 : |(![1000, 0, 0] : Fin 3 → ℝ) 0| ≤ maxAbs (![1000, 0, 0] : Fin 3 → ℝ) :=
      abs_le_maxAbs _ 0
    have : ((1000 : ℝ)) ≤ maxAbs (![1000, 0, 0] : Fin 3 → ℝ) := by
      simpa using h1000
    calc thrust_max < 1000 := by norm_num [thrust_max]
      _ ≤ _ := this
  exact ⟨h, (thruster_mapper_saturates.2 3 ![1000, 0, 0] 1 h)⟩

/-! ## Controller state and boundary messages -/

/-- A `geometry_msgs/Point` waypoint command: `x`, `y` world position,
`z` the desired heading in degrees. -/
structure PointMsg where
  x : ℝ
  y : ℝ
  z : ℝ

/-- The parts of a `nav_msgs/Odometry` message the controller reads:
timestamp, planar position, orientation quaternion `[x,y,z,w]`,
body-frame linear and angular velocity. -/
structure OdomMsg where
  stamp : ℝ
  px : ℝ
  py : ℝ
  ox : ℝ
  oy : ℝ
  oz : ℝ
  ow : ℝ
  vx : ℝ
  vy : ℝ
  vz : ℝ
  wx : ℝ
  wy : ℝ
  wz : ℝ

/-- The mutable per-instance fields of `MRAC_Controller`.  The tunables
that never change after `__init__` (gain matrices, geometry, limits) are
the top-level constants above; the adaptation rates `ki`, `kg` and the
`only_PD` flag are kept as fields because they are part of the
controller's configurable state. -/
structure ControllerState where
  ki : Fin 3 → ℝ
  kg : Fin 5 → ℝ
  dist_est : Fin 3 → ℝ
  drag_est : Fin 5 → ℝ
  only_PD : Bool
  p_des : Fin 2 → ℝ
  q_des : Fin 4 → ℝ
  traversal : ℝ
  p_ref : Fin 2 → ℝ
  v_ref : Fin 2 → ℝ
  q_ref : Fin 4 → ℝ
  w_ref : ℝ
  a_ref : Fin 2 → ℝ
  aa_ref : ℝ
  timestep : ℝ
  position : Fin 2 → ℝ
  orientation : Fin 4 → ℝ
  lin_vel : Fin 2 → ℝ
  ang_vel : ℝ
  last_odom : Option OdomMsg

/-- The state set up by `MRAC_Controller.__init__`. -/
def init_state : ControllerState where
  ki := ![0.1, 0.1, 0.1]
  kg := ![3, 3, 3, 3, 3]
  dist_est := ![0, 0, 0]
  drag_est := ![0, 0, 0, 0, 0]
  only_PD := true
  p_des := ![0, 0]
  q_des := ![1, 0, 0, 0]
  traversal := 0
  p_ref := ![0, 0]
  v_ref := ![0, 0]
  q_ref := ![0, 0, 0, 0]
  w_ref := 0
  a_ref := ![0, 0]
  aa_ref := 0
  timestep := 0.02
  position := ![0, 0]
  orientation := ![1, 0, 0, 0]
  lin_vel := ![0, 0]
  ang_vel := 0
  last_odom := none

/-- `MRAC_Controller.set_waypoint(msg)`: overwrite the desired pose,
reset the reference model to the current state, zero the reference
accelerations, record the straight-line traversal distance.  (The
diagnostic `des_pose_pub.publish` call has no effect on the state.) -/
def set_waypoint (s : ControllerState) (msg : PointMsg) : ControllerState :=
  { s with
    p_des := ![msg.x, msg.y],
    q_des := qfe_z (deg2rad msg.z),
    traversal := npl_norm2 (![msg.x, msg.y] - s.position),
    p_ref := s.position,
    v_ref := s.lin_vel,
    q_ref := s.orientation,
    w_ref := s.ang_vel,
    a_ref := ![0, 0],
    aa_ref := 0 }

/-- The "smartyaw" selection of the reference error quaternion
(`increment_reference`, the `if npl.norm(p_err) <= self.heading_threshold`
block): relative rotation from the reference orientation to the stored
desired orientation when close, and to the bearing-at-the-goal
orientation `quaternion_from_euler(0, 0, np.angle(dx + 1j dy))` when far. -/
def smartyaw_q_err (s : ControllerState) : Fin 4 → ℝ :=
  let p_err := s.p_des - s.p_ref
  if npl_norm2 p_err ≤ heading_threshold then qmul s.q_des (qinv s.q_ref)
  else qmul (qfe_z (np_angle (p_err 0) (p_err 1))) (qinv s.q_ref)

/-- `MRAC_Controller.increment_reference()`: one explicit-Euler step of
the virtual boat, including the reference PD law, the (shared) thruster
mapper, and the calibrated quadratic drag. -/
def increment_reference (s : ControllerState) : ControllerState :=
  let R_ref := Rmat s.q_ref
  let y_ref := yawOf s.q_ref
  let kp := R_ref * kp_body * R_ref.transpose
  let kd := R_ref * kd_body * R_ref.transpose
  let p_err := s.p_des - s.p_ref
  let q_err := smartyaw_q_err s
  let y_err := yawOf q_err
  let err : Fin 3 → ℝ := ![p_err 0, p_err 1, y_err]
  let errdot : Fin 3 → ℝ := ![-s.v_ref 0, -s.v_ref 1, -s.w_ref]
  let wrench := kp.mulVec err + kd.mulVec errdot
  let Mdir := R_ref * (Matrix.of thruster_directions).transpose
  let Marm := R_ref * (Matrix.of lever_arms).transpose
  let B : Matrix (Fin 6) (Fin 4) ℝ := Matrix.of ![Mdir 0, Mdir 1, Mdir 2, Marm 0, Marm 1, Marm 2]
  let B_3dof : Matrix (Fin 3) (Fin 4) ℝ := Matrix.of ![B 0, B 1, B 5]
  let command := thruster_mapper wrench B_3dof
  let wrench_saturated := B.mulVec command
  let twist_body := R_ref.transpose.mulVec ![s.v_ref 0, s.v_ref 1, s.w_ref]
  let drag_ref := R_ref.mulVec (fun i => D_body i * twist_body i * |twist_body i|)
  let a_ref' : Fin 2 → ℝ :=
    ![(wrench_saturated 0 - drag_ref 0) / mass_ref,
      (wrench_saturated 1 - drag_ref 1) / mass_ref]
  let aa_ref' := (wrench_saturated 5 - drag_ref 2) / inertia_ref
  { s with
    a_ref := a_ref',
    aa_ref := aa_ref',
    p_ref := fun i => s.p_ref i + s.v_ref i * s.timestep,
    q_ref := qfe_z (y_ref + s.w_ref * s.timestep),
    v_ref := fun i => s.v_ref i + a_ref' i * s.timestep,
    w_ref := s.w_ref + aa_ref' * s.timestep }

/-! ## `MRAC_Controller.get_command`, split along the source's comments -/

/-- Unpacked planar position of the odometry message. -/
def posn (msg : OdomMsg) : Fin 2 → ℝ := ![msg.px, msg.py]

/-- Unpacked orientation quaternion of the odometry message. -/
def ornt (msg : OdomMsg) : Fin 4 → ℝ := ![msg.ox, msg.oy, msg.oz, msg.ow]

/-- The timestep used by the tick: the interval between this message's
stamp and the previous one's, or the stored (initially nominal `0.02`)
timestep on the very first call. -/
def gc_dt (s : ControllerState) (msg : OdomMsg) : ℝ :=
  match s.last_odom with
  | none => s.timestep
  | some last => msg.stamp - last.stamp

/-- World-frame planar linear velocity:
`R.dot([vx, vy, vz])[:2]`. -/
def gc_lin_vel (msg : OdomMsg) : Fin 2 → ℝ :=
  let Rv := (Rmat (ornt msg)).mulVec ![msg.vx, msg.vy, msg.vz]
  ![Rv 0, Rv 1]

/-- World-frame angular velocity: `R.dot([wx, wy, wz])[2]`. -/
def gc_ang_vel (msg : OdomMsg) : ℝ :=
  (Rmat (ornt msg)).mulVec ![msg.wx, msg.wy, msg.wz] 2

/-- The tick's tracking error (reference − true): planar position error
and the yaw of the relative rotation `q_ref ⊗ orientation⁻¹`. -/
def gc_err (s : ControllerState) (msg : OdomMsg) : Fin 3 → ℝ :=
  ![s.p_ref 0 - msg.px, s.p_ref 1 - msg.py,
    yawOf (qmul s.q_ref (qinv (ornt msg)))]

/-- The tick's tracking error rate (reference − true). -/
def gc_errdot (s : ControllerState) (msg : OdomMsg) : Fin 3 → ℝ :=
  ![s.v_ref 0 - gc_lin_vel msg 0, s.v_ref 1 - gc_lin_vel msg 1,
    s.w_ref - gc_ang_vel msg]

/-- The "learning" drag regressor matrix, a function of the world-frame
linear velocity, angular velocity and yaw. -/
def drag_regressor (lv : Fin 2 → ℝ) (av y : ℝ) : Matrix (Fin 3) (Fin 5) ℝ :=
  !![lv 0 * Real.cos y ^ 2 + lv 1 * Real.sin y * Real.cos y,
     lv 0 / 2 - lv 0 * Real.cos (2 * y) / 2 - lv 1 * Real.sin (2 * y) / 2,
     -av * Real.sin y,
     -av * Real.cos y,
     0;
     lv 1 / 2 - lv 1 * Real.cos (2 * y) / 2 + lv 0 * Real.sin (2 * y) / 2,
     lv 1 * Real.cos y ^ 2 - lv 0 * Real.cos y * Real.sin y,
     av * Real.cos y,
     -av * Real.sin y,
     0;
     0,
     0,
     lv 1 * Real.cos y - lv 0 * Real.sin y,
     -(lv 0 * Real.cos y) - lv 1 * Real.sin y,
     av]

/-- The regressor evaluated at the tick's unpacked state. -/
def gc_regressor (msg : OdomMsg) : Matrix (Fin 3) (Fin 5) ℝ :=
  drag_regressor (gc_lin_vel msg) (gc_ang_vel msg) (yawOf (ornt msg))

/-- The inertia-scaled "anticipation" feedforward. -/
def inertial_ff (s : ControllerState) : Fin 3 → ℝ :=
  ![s.a_ref 0 * mass_ref, s.a_ref 1 * mass_ref, s.aa_ref * inertia_ref]

/-- The world-frame output wrench:
`wrench = PD` when `only_PD`, and
`PD + feedforward + dist_est + drag_regressor · drag_est` otherwise,
with the gains rotated into the world frame. -/
def gc_wrench (s : ControllerState) (msg : OdomMsg) : Fin 3 → ℝ :=
  let R := Rmat (ornt msg)
  let kp := R * kp_body * R.transpose
  let kd := R * kd_body * R.transpose
  if s.only_PD then kp.mulVec (gc_err s msg) + kd.mulVec (gc_errdot s msg)
  else kp.mulVec (gc_err s msg) + kd.mulVec (gc_errdot s msg) + inertial_ff s +
    s.dist_est + (gc_regressor msg).mulVec s.drag_est

/-- The body-frame wrench before the safety clamp: world wrench rotated
by `Rᵀ`, with the lateral-force and torque channels sign-flipped
(`wrench_body[1:] = -wrench_body[1:]`). -/
def gc_wrench_body (s : ControllerState) (msg : OdomMsg) : Fin 3 → ℝ :=
  let wb := (Rmat (ornt msg)).transpose.mulVec (gc_wrench s msg)
  ![wb 0, -wb 1, -wb 2]

/-- `MRAC_Controller.get_command(msg)`: one full tick.  Returns the new
controller state (timestep/last-odom bookkeeping, ROS unpacking,
disturbance and drag adaptation, then `increment_reference`) together
with the published body-frame wrench `[force.x, force.y, torque.z]`,
each component clamped to `[-600, 600]`. -/
def get_command (s : ControllerState) (msg : OdomMsg) : ControllerState × (Fin 3 → ℝ) :=
  let dt := gc_dt s msg
  let s' : ControllerState :=
    { s with
      last_odom := some msg,
      timestep := dt,
      position := posn msg,
      orientation := ornt msg,
      lin_vel := gc_lin_vel msg,
      ang_vel := gc_ang_vel msg,
      dist_est := fun i => s.dist_est i + s.ki i * gc_err s msg i * dt,
      drag_est := fun i => s.drag_est i +
        s.kg i * (gc_regressor msg).transpose.mulVec
          (fun j => gc_err s msg j + gc_errdot s msg j) i * dt }
  (increment_reference s',
   ![clip (gc_wrench_body s msg 0) (-600) 600,
     clip (gc_wrench_body s msg 1) (-600) 600,
     clip (gc_wrench_body s msg 2) (-600) 600])

/-! ## Claims about the tick and waypoint operations -/

/-- Claim C6: `set_waypoint` replaces the desired pose, copies the
vehicle's current position/velocity/orientation/angular velocity into the
reference state, zeroes both reference accelerations, records the
straight-line traversal distance, and leaves the estimator state and
every other controller field unchanged. -/
theorem set_waypoint_effect (s : ControllerState) (msg : PointMsg) :
    (set_waypoint s msg).p_des = ![msg.x, msg.y] ∧
    (set_waypoint s msg).q_des = qfe_z (deg2rad msg.z) ∧
    (set_waypoint s msg).traversal = npl_norm2 (![msg.x, msg.y] - s.position) ∧
    (set_waypoint s msg).p_ref = s.position ∧
    (set_waypoint s msg).v_ref = s.lin_vel ∧
    (set_waypoint s msg).q_ref = s.orientation ∧
    (set_waypoint s msg).w_ref = s.ang_vel ∧
    (set_waypoint s msg).a_ref = ![0, 0] ∧
    (set_waypoint s msg).aa_ref = 0 ∧
    (set_waypoint s msg).dist_est = s.dist_est ∧
    (set_waypoint s msg).drag_est = s.drag_est ∧
    (set_waypoint s msg).ki = s.ki ∧
    (set_waypoint s msg).kg = s.kg ∧
    (set_waypoint s msg).only_PD = s.only_PD ∧
    (set_waypoint s msg).timestep = s.timestep ∧
    (set_waypoint s msg).position = s.position ∧
    (set_waypoint s msg).orientation = s.orientation ∧
    (set_waypoint s msg).lin_vel = s.lin_vel ∧
    (set_waypoint s msg).ang_vel = s.ang_vel ∧
    (set_waypoint s msg).last_odom = s.last_odom :=
  ⟨rfl, rfl, rfl, rfl, rfl, rfl, rfl, rfl, rfl, rfl,
   rfl, rfl, rfl, rfl, rfl, rfl, rfl, rfl, rfl, rfl⟩

/-- Claim C9: every tick updates the disturbance estimate by exactly
`ki ⊙ err * dt`, where `err` is this tick's (reference − actual)
position-and-heading error and `dt` the tick's timestep. -/
theorem dist_est_update (s : ControllerState) (msg : OdomMsg) :
    (get_command s msg).1.dist_est =
      fun i => s.dist_est i + s.ki i * gc_err s msg i * gc_dt s msg := rfl

lemma clip_le_hi (x : ℝ) : clip x (-600) 600 ≤ 600 := min_le_right _ _

lemma lo_le_clip (x : ℝ) : -600 ≤ clip x (-600) 600 :=
  le_min (le_max_right x (-600)) (by norm_num)

/-- Claim C7: each of the three body-frame components of the published
wrench is clamped into the fixed safety interval `[-600, 600]`, whatever
the controller state and odometry input. -/
theorem wrench_saturated (s : ControllerState) (msg : OdomMsg) (i : Fin 3) :
    -600 ≤ (get_command s msg).2 i ∧ (get_command s msg).2 i ≤ 600 := by
  fin_cases i
  · exact ⟨lo_le_clip _, clip_le_hi _⟩
  · exact ⟨lo_le_clip _, clip_le_hi _⟩
  · exact ⟨lo_le_clip _, clip_le_hi _⟩

/-! ## Claim C4: the timestep is not clamped -/

/-- A concrete odometry message with timestamp `1` (identity orientation,
vehicle at rest at the origin). -/
def odomAt1 : OdomMsg :=
  { stamp := 1, px := 0, py := 0, ox := 0, oy := 0, oz := 0, ow := 1,
    vx := 0, vy := 0, vz := 0, wx := 0, wy := 0, wz := 0 }

/-- A controller state that has already processed `odomAt1`. -/
def state_after_first : ControllerState :=
  { init_state with last_odom := some odomAt1 }

/-- Counterexample to claim C4: when a second odometry message carries
the same timestamp as the previous one, the timestep the tick stores and
uses is `1 - 1 = 0` — it is not clamped to a strictly positive value. -/
theorem timestep_not_clamped :
    ¬ (0 < (get_command state_after_first odomAt1).1.timestep) := by
  have h : (get_command state_after_first odomAt1).1.timestep = 1 - 1 := rfl
  rw [h]
  norm_num

/-- Claim C4 amended: after the first update, the timestep used by the
tick is exactly the raw difference of consecutive message timestamps,
with no clamping (so equal or out-of-order stamps produce a zero or
negative timestep). -/
theorem timestep_raw_difference (s : ControllerState) (msg last : OdomMsg)
    (h : s.last_odom = some last) :
    (get_command s msg).1.timestep = msg.stamp - last.stamp := by
  have ht : (get_command s msg).1.timestep = gc_dt s msg := rfl
  rw [ht]
  unfold gc_dt
  rw [h]

/-- Witness for the amended C4 at two concrete equal-stamp messages. -/
theorem timestep_raw_difference_witness :
    state_after_first.last_odom = some odomAt1 ∧
      (get_command state_after_first odomAt1).1.timestep =
        odomAt1.stamp - odomAt1.stamp :=
  ⟨rfl, timestep_raw_difference state_after_first odomAt1 odomAt1 rfl⟩

/-! ## Claim C10: the pre-waypoint reference orientation is the zero quaternion -/

/-- Claim C10: at construction the reference orientation `q_ref` is the
zero vector `[0, 0, 0, 0]` (squared norm `0`, not unit); the unit-norm
invariant only appears once `q_ref` is rewritten — every
`increment_reference` step writes `q_ref` through
`quaternion_from_euler(0, 0, ·)`, which always has unit norm, and
`set_waypoint` copies the vehicle orientation. -/
theorem q_ref_initially_zero :
    init_state.q_ref = ![0, 0, 0, 0] ∧
    qdot init_state.q_ref = 0 ∧
    (∀ s : ControllerState, qdot ((increment_reference s).q_ref) = 1) ∧
    (∀ (s : ControllerState) (msg : PointMsg),
      (set_waypoint s msg).q_ref = s.orientation) := by
  refine ⟨rfl, by norm_num [qdot, init_state], fun s => ?_, fun s msg => rfl⟩
  show qdot (qfe_z (yawOf s.q_ref + s.w_ref * s.timestep)) = 1
  show 0 * 0 + 0 * 0 +
      Real.sin ((yawOf s.q_ref + s.w_ref * s.timestep) / 2) *
        Real.sin ((yawOf s.q_ref + s.w_ref * s.timestep) / 2) +
      Real.cos ((yawOf s.q_ref + s.w_ref * s.timestep) / 2) *
        Real.cos ((yawOf s.q_ref + s.w_ref * s.timestep) / 2) = 1
  nlinarith [Real.sin_sq_add_cos_sq ((yawOf s.q_ref + s.w_ref * s.timestep) / 2)]

/-! ## Claim C8: independent PD-only and adaptation-off controls -/

/-- A probe state for C8(a): the constructed state with nonzero
disturbance/drag estimates and reference accelerations. -/
def probe_pd_state : ControllerState :=
  { init_state with dist_est := fun _ => 1, drag_est := fun _ => 1, a_ref := fun _ => 1, aa_ref := 1 }

/-- A probe state for C8(b): the constructed state with both adaptation
rate vectors zeroed. -/
def zero_rates_state : ControllerState :=
  { init_state with ki := fun _ => 0, kg := fun _ => 0 }

/-- Claim C8: (a) with `only_PD` set, the published wrench is pure PD —
it does not depend on the disturbance estimate, the drag estimate, or the
reference accelerations feeding the inertial feedforward — while the
disturbance estimate still integrates its error signal; (b) with the
adaptation rates `ki` and `kg` zeroed, a tick leaves `dist_est` and
`drag_est` unchanged. -/
theorem pd_only_and_adaptation_off :
    (∀ (s : ControllerState) (msg : OdomMsg) (d : Fin 3 → ℝ) (g : Fin 5 → ℝ)
       (a : Fin 2 → ℝ) (aa : ℝ), s.only_PD = true →
      (get_command { s with dist_est := d, drag_est := g, a_ref := a, aa_ref := aa } msg).2 =
        (get_command s msg).2 ∧
      (get_command s msg).1.dist_est =
        fun i => s.dist_est i + s.ki i * gc_err s msg i * gc_dt s msg) ∧
    (∀ (s : ControllerState) (msg : OdomMsg),
      (∀ i, s.ki i = 0) → (∀ j, s.kg j = 0) →
      (get_command s msg).1.dist_est = s.dist_est ∧
      (get_command s msg).1.drag_est = s.drag_est) := by
  constructor
  · intro s msg d g a aa h
    refine ⟨?_, rfl⟩
    have hw : gc_wrench { s with dist_est := d, drag_est := g, a_ref := a, aa_ref := aa } msg =
        gc_wrench s msg := by
      unfold gc_wrench
      have hpd : ({ s with dist_est := d, drag_est := g, a_ref := a, aa_ref := aa} :
          ControllerState).only_PD = true := h
      rw [hpd]
      rfl
    have hwb : gc_wrench_body { s with dist_est := d, drag_est := g, a_ref := a, aa_ref := aa } msg =
        gc_wrench_body s msg := by
      unfold gc_wrench_body
      rw [hw]
    show (![clip (gc_wrench_body _ msg 0) (-600) 600,
            clip (gc_wrench_body _ msg 1) (-600) 600,
            clip (gc_wrench_body _ msg 2) (-600) 600] : Fin 3 → ℝ) = _
    rw [hwb]
    rfl
  · intro s msg hki hkg
    constructor
    · funext i
      show s.dist_est i + s.ki i * gc_err s msg i * gc_dt s msg = s.dist_est i
      rw [hki i, zero_mul, zero_mul, add_zero]
    · funext j
      show s.drag_est j + s.kg j * (gc_regressor msg).transpose.mulVec
          (fun k => gc_err s msg k + gc_errdot s msg k) j * gc_dt s msg = s.drag_est j
      rw [hkg j, zero_mul, zero_mul, add_zero]

/-- Witness for C8 at the constructed state (whose `only_PD` is `True`)
with the adaptation rates zeroed, and a concrete odometry message. -/
theorem pd_only_and_adaptation_off_witness :
    (init_state.only_PD = true ∧
      (get_command probe_pd_state odomAt1).2 = (get_command init_state odomAt1).2) ∧
    ((∀ i, zero_rates_state.ki i = 0) ∧
      (∀ j, zero_rates_state.kg j = 0) ∧
      (get_command zero_rates_state odomAt1).1.dist_est = zero_rates_state.dist_est) := by
  refine ⟨⟨rfl, ?_⟩, fun i => rfl, fun j => rfl, ?_⟩
  · exact (pd_only_and_adaptation_off.1 init_state odomAt1 (fun _ => 1) (fun _ => 1)
      (fun _ => 1) 1 rfl).1
  · exact (pd_only_and_adaptation_off.2 zero_rates_state
      odomAt1 (fun _ => rfl) (fun _ => rfl)).1

/-! ## Claim C5: smartyaw heading-target selection -/

lemma qdot_qfe_z (θ : ℝ) : qdot (qfe_z θ) = 1 := by
  show (0 : ℝ) * 0 + 0 * 0 + Real.sin (θ / 2) * Real.sin (θ / 2) +
    Real.cos (θ / 2) * Real.cos (θ / 2) = 1
  nlinarith [Real.sin_sq_add_cos_sq (θ / 2)]

lemma Rmat_qfe_z (θ : ℝ) :
    Rmat (qfe_z θ) 0 0 = Real.cos θ ∧ Rmat (qfe_z θ) 1 0 = Real.sin θ := by
  have hs : Real.sin θ = 2 * Real.sin (θ / 2) * Real.cos (θ / 2) := by
    conv_lhs => rw [(by ring : θ = 2 * (θ / 2))]
    exact Real.sin_two_mul _
  have hc : Real.cos θ = 1 - 2 * Real.sin (θ / 2) ^ 2 := by
    conv_lhs => rw [(by ring : θ = 2 * (θ / 2))]
    rw [Real.cos_two_mul, Real.cos_sq']
    ring
  unfold Rmat
  rw [qdot_qfe_z]
  rw [if_neg (by norm_num [tfEPS])]
  constructor
  · show 1 - 2 / 1 * ((qfe_z θ) 1 * (qfe_z θ) 1 + (qfe_z θ) 2 * (qfe_z θ) 2) = Real.cos θ
    show 1 - 2 / 1 * ((0 : ℝ) * 0 + Real.sin (θ / 2) * Real.sin (θ / 2)) = Real.cos θ
    rw [hc]
    ring
  · show 2 / 1 * ((qfe_z θ) 0 * (qfe_z θ) 1 + (qfe_z θ) 2 * (qfe_z θ) 3) = Real.sin θ
    show 2 / 1 * ((0 : ℝ) * 0 + Real.sin (θ / 2) * Real.cos (θ / 2)) = Real.sin θ
    rw [hs]
    ring

/-- Yaw extraction inverts `quaternion_from_euler(0, 0, θ)` for angles in
the principal range `(-π, π]` (in particular for any `atan2` value). -/
lemma yawOf_qfe_z (θ : ℝ) (hθ : θ ∈ Set.Ioc (-Real.pi) Real.pi) :
    yawOf (qfe_z θ) = θ := by
  obtain ⟨h00, h10⟩ := Rmat_qfe_z θ
  unfold yawOf
  show (if tfEPS < Real.sqrt (Rmat (qfe_z θ) 0 0 * Rmat (qfe_z θ) 0 0 +
      Rmat (qfe_z θ) 1 0 * Rmat (qfe_z θ) 1 0) then
    atan2 (Rmat (qfe_z θ) 1 0) (Rmat (qfe_z θ) 0 0) else 0) = θ
  rw [h00, h10]
  have hcy : Real.sqrt (Real.cos θ * Real.cos θ + Real.sin θ * Real.sin θ) = 1 := by
    have h1 : Real.cos θ * Real.cos θ + Real.sin θ * Real.sin θ = 1 := by
      nlinarith [Real.sin_sq_add_cos_sq θ]
    rw [h1, Real.sqrt_one]
  rw [hcy, if_pos (by norm_num [tfEPS])]
  unfold atan2
  rw [Complex.ofReal_cos, Complex.ofReal_sin]
  exact Complex.arg_cos_add_sin_mul_I hθ

/-- Claim C5: the reference model's heading target is selected by the
smartyaw rule.  When the reference-to-goal distance exceeds
`heading_threshold`, the error quaternion is taken against the bearing
orientation, whose yaw is exactly `atan2 dy dx`; when the distance is at
most `heading_threshold`, it is taken against the stored desired
orientation `q_des`. -/
theorem smartyaw_selection (s : ControllerState) :
    (heading_threshold < npl_norm2 (s.p_des - s.p_ref) →
      smartyaw_q_err s =
        qmul (qfe_z (atan2 ((s.p_des - s.p_ref) 1) ((s.p_des - s.p_ref) 0))) (qinv s.q_ref) ∧
      yawOf (qfe_z (atan2 ((s.p_des - s.p_ref) 1) ((s.p_des - s.p_ref) 0))) =
        atan2 ((s.p_des - s.p_ref) 1) ((s.p_des - s.p_ref) 0)) ∧
    (npl_norm2 (s.p_des - s.p_ref) ≤ heading_threshold →
      smartyaw_q_err s = qmul s.q_des (qinv s.q_ref)) := by
  constructor
  · intro h
    constructor
    · unfold smartyaw_q_err
      rw [if_neg (not_le.mpr h)]
      rfl
    · exact yawOf_qfe_z _ (Complex.arg_mem_Ioc _)
  · intro h
    unfold smartyaw_q_err
    rw [if_pos h]

/-- A far-away waypoint for the C5 witness: goal at `(1000, 0)`,
reference at the origin, distance `1000 > 500`. -/
def far_goal_state : ControllerState :=
  { init_state with p_des := ![1000, 0] }

/-- Witness for C5, exercising both branches: the far state takes the
bearing target, the constructed state (distance `0 ≤ 500`) takes the
stored desired orientation. -/
theorem smartyaw_selection_witness :
    (heading_threshold < npl_norm2 (far_goal_state.p_des - far_goal_state.p_ref) ∧
      smartyaw_q_err far_goal_state =
        qmul (qfe_z (atan2 ((far_goal_state.p_des - far_goal_state.p_ref) 1)
          ((far_goal_state.p_des - far_goal_state.p_ref) 0))) (qinv far_goal_state.q_ref)) ∧
    (npl_norm2 (init_state.p_des - init_state.p_ref) ≤ heading_threshold ∧
      smartyaw_q_err init_state = qmul init_state.q_des (qinv init_state.q_ref)) := by
  have hfar : heading_threshold < npl_norm2 (far_goal_state.p_des - far_goal_state.p_ref) := by
    have hv : far_goal_state.p_des - far_goal_state.p_ref = ![1000, 0] := by
      funext i
      fin_cases i <;> norm_num [far_goal_state, init_state]
    rw [hv]
    unfold npl_norm2
    have h0 : (![1000, 0] : Fin 2 → ℝ) 0 = 1000 := rfl
    have h1 : (![1000, 0] : Fin 2 → ℝ) 1 = 0 := rfl
    rw [h0, h1]
    have : Real.sqrt ((1000 : ℝ) * 1000 + 0 * 0) = 1000 := by
      rw [show (1000 : ℝ) * 1000 + 0 * 0 = 1000 * 1000 by ring]
      exact Real.sqrt_mul_self (by norm_num)
    rw [this]
    norm_num [heading_threshold]
  have hnear : npl_norm2 (init_state.p_des - init_state.p_ref) ≤ heading_threshold := by
    have hv : init_state.p_des - init_state.p_ref = ![0, 0] := by
      funext i
      fin_cases i <;> norm_num [init_state]
    rw [hv]
    unfold npl_norm2
    have h0 : (![0, 0] : Fin 2 → ℝ) 0 = 0 := rfl
    rw [h0]
    norm_num [heading_threshold]
  exact ⟨⟨hfar, ((smartyaw_selection far_goal_state).1 hfar).1⟩,
    ⟨hnear, (smartyaw_selection init_state).2 hnear⟩⟩
